import Mathlib

/-!
Shallow embedding of the Hacker News MCP server core (`src/api.ts`) and the
argument-shaping fragment of its tool layer (`src/tools.ts`).

The remote world is abstracted by explicit environment functions:
  * `env : Nat → Option HNItem` — what the origin item endpoint returns for
    each numeric id (`none` models a non-success HTTP status);
  * `fetchIds : StoryKind → Option (List Nat)` — the category listing
    endpoint.
Network calls are deterministic reads of these environments; the `Promise.all`
fan-outs in the source join pure results in input order, which is exactly what
the assembled output preserves, so the embedding maps them to `List.map`.
`getCommentTree` additionally returns the list of item ids it fetched, in
order, so that "issues no fetch" claims are statable.
-/

/-- An item of the origin system, mirroring the `HNItem` interface:
every field except `id` is optional. -/
structure HNItem where
  id : Nat
  type : Option String := none
  «by» : Option String := none
  time : Option Nat := none
  text : Option String := none
  url : Option String := none
  title : Option String := none
  score : Option Int := none
  descendants : Option Nat := none
  kids : Option (List Nat) := none
  parent : Option Nat := none
  parts : Option (List Nat) := none
  poll : Option Nat := none
  dead : Option Bool := none
  deleted : Option Bool := none
deriving Repr, DecidableEq

/-- A node of the assembled comment tree: the record literal built at the end
of `getCommentTree` (`{ id, by, text, time, children }`). -/
structure CommentNode where
  id : Nat
  «by» : String
  text : String
  time : Option Nat
  children : List CommentNode
deriving Repr

/-- An HTTP response as seen by `fetchJson`: a success flag (`res.ok`) and a
raw body handed to the JSON parser. -/
structure HttpResponse where
  ok : Bool
  body : String

/-- `fetchJson<T>`: issue a GET (modelled by `doFetch`); on a non-success
status return `null` (here `Except.ok none`); on success parse the body
(`res.json()`, modelled by `parse`) — a parse failure is an uncaught
exception, modelled by `Except.error`. -/
def fetchJson {T : Type} (doFetch : String → HttpResponse)
    (parse : String → Except String T) (url : String) :
    Except String (Option T) :=
  let res := doFetch url
  if !res.ok then Except.ok none
  else
    match parse res.body with
    | Except.error e => Except.error e
    | Except.ok data => Except.ok (some data)

/-- The six fixed story-listing categories accepted by `getStoryIds`. -/
inductive StoryKind where
  | topstories
  | newstories
  | beststories
  | askstories
  | showstories
  | jobstories
deriving Repr, DecidableEq

/-- `getItem(id)`: resolve an id against the origin item endpoint. -/
def getItem (env : Nat → Option HNItem) (id : Nat) : Option HNItem :=
  env id

/-- `getStoryIds(kind)`: fetch the id list for a category; absence is coerced
to the empty list (`ids ?? []`). -/
def getStoryIds (fetchIds : StoryKind → Option (List Nat))
    (kind : StoryKind) : List Nat :=
  (fetchIds kind).getD []

/-- `getStories(kind, limit, offset)`: slice the id list to
`[offset, offset+limit)`, resolve every id of the page, drop the ids that
resolved to `null`, and report the full id-list length as `total`. -/
def getStories (env : Nat → Option HNItem)
    (fetchIds : StoryKind → Option (List Nat))
    (kind : StoryKind) (limit offset : Nat) : List HNItem × Nat :=
  let allIds := getStoryIds fetchIds kind
  let pageIds := (allIds.drop offset).take limit
  let items := pageIds.map (getItem env)
  (items.filterMap id, allIds.length)

/-- `getCommentTree(itemId, maxDepth, currentDepth)`: the bounded recursive
tree fetch. The first component is the returned tree (`none` models the
`null` returns); the second component instruments the embedding with the
list of item ids fetched by `getItem`, in issuing order, so that claims about
fetch issuance are statable. The guard `item.kids && currentDepth < maxDepth`
tests JavaScript truthiness of `kids`: present (`some`) passes, even when the
list is empty. -/
def getCommentTree (env : Nat → Option HNItem)
    (itemId maxDepth currentDepth : Nat) :
    Option CommentNode × List Nat :=
  if currentDepth > maxDepth then (none, [])
  else
    match getItem env itemId with
    | none => (none, [itemId])
    | some item =>
      let sub : List CommentNode × List Nat :=
        match item.kids with
        | some kids =>
          if h : currentDepth < maxDepth then
            let childResults :=
              kids.map (fun kid => getCommentTree env kid maxDepth (currentDepth + 1))
            ((childResults.map Prod.fst).filterMap id,
             (childResults.map Prod.snd).flatten)
          else ([], [])
        | none => ([], [])
      (some { id := item.id
              «by» := item.«by».getD "[deleted]"
              text := item.text.getD ""
              time := item.time
              children := sub.1 },
       itemId :: sub.2)
termination_by maxDepth - currentDepth
decreasing_by omega

/-- Height of an assembled comment tree: 1 for the node itself plus the
maximum height among its children (0 when there are none). Used to express
that the recursion of `getCommentTree` is bounded by the depth budget. -/
def CommentNode.height : CommentNode → Nat
  | ⟨_, _, _, _, cs⟩ =>
    1 + (cs.attach.map (fun c => CommentNode.height c.1)).foldr Max.max 0
decreasing_by
  simp_wf
  have := List.sizeOf_lt_of_mem c.2
  omega

/-- `clamp(value, min, max)` from `src/tools.ts`:
`Math.max(min, Math.min(max, value))`. -/
def clamp (value min max : Int) : Int :=
  Max.max min (Min.min max value)

/-- The arguments the story-listing tool handlers pass to `getStories`
(`src/tools.ts`): `safeLimit = clamp(limit, 1, 50)` and
`safeOffset = Math.max(0, offset)`. -/
def storyToolArgs (limit offset : Int) : Int × Int :=
  (clamp limit 1 50, Max.max 0 offset)

/-- The depth the `hn_get_comments` tool handler passes to `getCommentTree`
(`src/tools.ts`): `safeDepth = clamp(depth, 1, 5)`. -/
def commentToolDepth (depth : Int) : Int :=
  clamp depth 1 5

/-- The options record of `searchHN`; every field is optional
(`undefined` modelled as `none`). -/
structure SearchOpts where
  tags : Option String := none
  page : Option Int := none
  hitsPerPage : Option Int := none
  numericFilters : Option String := none
deriving Repr, DecidableEq

/-- The request parameters `searchHN` builds: `new URLSearchParams({query})`
followed by the four conditional `set` calls. `opts.tags` and
`opts.numericFilters` are guarded by JavaScript truthiness (the empty string
is falsy and hence skipped); `opts.page` and `opts.hitsPerPage` are guarded
by `!== undefined` (so `0` is included). All keys are distinct, so each `set`
appends one pair. -/
def searchHNParams (query : String) (opts : SearchOpts) :
    List (String × String) :=
  let params := [("query", query)]
  let params :=
    match opts.tags with
    | some t => if t = "" then params else params ++ [("tags", t)]
    | none => params
  let params :=
    match opts.page with
    | some p => params ++ [("page", toString p)]
    | none => params
  let params :=
    match opts.hitsPerPage with
    | some n => params ++ [("hitsPerPage", toString n)]
    | none => params
  let params :=
    match opts.numericFilters with
    | some f => if f = "" then params else params ++ [("numericFilters", f)]
    | none => params
  params

/-! ### Concrete data for witnesses and counterexamples -/

/-- Root item of the spec's §8 scenario: id 1 with children `[2, 3]`. -/
def item1 : HNItem :=
  { id := 1, «by» := some "alice", time := some 100, text := some "root",
    kids := some [2, 3] }

/-- Leaf item of the spec's §8 scenario: id 3, no author, no text, no kids. -/
def item3 : HNItem :=
  { id := 3, time := some 103 }

/-- Environment of the spec's §8 scenario: items 1 and 3 exist, item 2 is
absent (its fetch fails). -/
def env0 : Nat → Option HNItem := fun i =>
  if i = 1 then some item1 else if i = 3 then some item3 else none

/-- An item with one child id whose child is absent from its environment. -/
def itemOrphan : HNItem :=
  { id := 1, kids := some [2] }

/-- Environment containing only `itemOrphan` at id 1; id 2 is absent. -/
def envOrphan : Nat → Option HNItem := fun i =>
  if i = 1 then some itemOrphan else none

/-- The node `getCommentTree` assembles for `itemOrphan` at depth budget 1:
its only child resolves to absence, so `children` is empty. -/
def nodeOrphan : CommentNode :=
  { id := 1, «by» := "[deleted]", text := "", time := none, children := [] }

/-- The node `getCommentTree` assembles for `item3`. -/
def node3 : CommentNode :=
  { id := 3, «by» := "[deleted]", text := "", time := some 103, children := [] }

/-- The node `getCommentTree` assembles for `item1` in `env0` at depth
budget 1: the absent child 2 is dropped, child 3 survives. -/
def node1 : CommentNode :=
  { id := 1, «by» := "alice", text := "root", time := some 100,
    children := [node3] }

/-- Category listing of the spec's §8 scenario: ids `[10..14]`. -/
def fetchIds0 : StoryKind → Option (List Nat) := fun _ =>
  some [10, 11, 12, 13, 14]

/-- Item environment where exactly the ids 10–14 resolve. -/
def envStories : Nat → Option HNItem := fun i =>
  if 10 ≤ i ∧ i ≤ 14 then some { id := i } else none

/-- A transport returning a non-success status for every URL. -/
def badStatusFetch : String → HttpResponse := fun _ =>
  { ok := false, body := "" }

/-- A transport returning a success status with a non-JSON body. -/
def okStatusFetch : String → HttpResponse := fun _ =>
  { ok := true, body := "not json" }

/-- A parser that fails on every body, as `res.json()` does on a non-JSON
payload. -/
def failingParse : String → Except String Nat := fun _ =>
  Except.error "Unexpected token"

/-- Search options exercising every branch of `searchHNParams`: an
empty-string tag filter (falsy, must be dropped), page 0 (must be kept),
an explicit page size, and no numeric filter. -/
def searchOpts0 : SearchOpts :=
  { tags := some "", page := some 0, hitsPerPage := some 10 }

/-! ### Theorems -/

/-- C1: `getCommentTree(rootId, maxDepth, currentDepth)` returns absence if
and only if `currentDepth > maxDepth` or the fetch of the root item returns
absence; in the depth-exceeded case it returns absence immediately, with an
empty fetch trace (no fetch is issued). -/
theorem getCommentTree_absence_characterisation
    (env : Nat → Option HNItem) (itemId maxDepth currentDepth : Nat) :
    (currentDepth > maxDepth →
      getCommentTree env itemId maxDepth currentDepth = (none, [])) ∧
    ((getCommentTree env itemId maxDepth currentDepth).1 = none ↔
      currentDepth > maxDepth ∨ getItem env itemId = none) := by
  constructor
  · intro h
    rw [getCommentTree]
    simp [h]
  · rw [getCommentTree]
    by_cases h : currentDepth > maxDepth
    · simp [h]
    · cases henv : getItem env itemId with
      | none => simp [h, henv]
      | some item => simp [h, henv]

theorem getCommentTree_absence_characterisation_witness :
    (1 > 0) ∧ getCommentTree env0 5 0 1 = (none, []) ∧
    (getCommentTree env0 5 0 1).1 = none :=
  ⟨by decide,
   (getCommentTree_absence_characterisation env0 5 0 1).1 (by decide),
   ((getCommentTree_absence_characterisation env0 5 0 1).2).mpr
     (Or.inl (by decide))⟩

/-- C2: for a root item with child ids and `maxDepth ≥ 1` at depth 0, the
returned node's children are exactly the recursive resolutions of the child
ids in their original relative order, with the children that resolve to
absence omitted (no placeholders). -/
theorem getCommentTree_children_order
    (env : Nat → Option HNItem) (rootId maxDepth : Nat)
    (item : HNItem) (kids : List Nat)
    (hitem : getItem env rootId = some item)
    (hkids : item.kids = some kids)
    (hd : 1 ≤ maxDepth) :
    ((getCommentTree env rootId maxDepth 0).1).map CommentNode.children =
      some (kids.filterMap (fun kid => (getCommentTree env kid maxDepth 1).1)) := by
  rw [getCommentTree]
  have h0 : ¬ (0 > maxDepth) := by omega
  have h1 : 0 < maxDepth := by omega
  simp [h0, hitem, hkids, h1, List.filterMap_map, Function.comp]
  rfl

theorem getCommentTree_children_order_witness :
    getItem env0 1 = some item1 ∧ item1.kids = some [2, 3] ∧ (1 : Nat) ≤ 1 ∧
    ((getCommentTree env0 1 1 0).1).map CommentNode.children =
      some ([2, 3].filterMap (fun kid => (getCommentTree env0 kid 1 1).1)) :=
  ⟨rfl, rfl, le_refl 1,
   getCommentTree_children_order env0 1 1 item1 [2, 3] rfl rfl (le_refl 1)⟩

/-- C3 counterexample: the "exactly when" direction fails. For the
environment holding only `itemOrphan` (id 1 with child-id list `[2]`, id 2
absent) and `maxDepth = 1`, the returned node has an empty child sequence
even though the resolved item does have child ids and the depth budget is
not exhausted (`0 < 1`). -/
theorem getCommentTree_empty_children_not_iff :
    (getCommentTree envOrphan 1 1 0).1 = some nodeOrphan ∧
    nodeOrphan.children = [] ∧
    getItem envOrphan 1 = some itemOrphan ∧
    ¬(itemOrphan.kids = none ∨ itemOrphan.kids = some [] ∨ (1 : Nat) ≤ 0) := by
  refine ⟨?_, rfl, rfl, by decide⟩
  simp [getCommentTree, envOrphan, itemOrphan, nodeOrphan, getItem]

/-- C3 amended: the child sequence is empty whenever (but not only when) the
resolved item has no child ids (`kids` absent or empty) or the depth budget
is exhausted (`maxDepth ≤ currentDepth`); in particular a root with no
children yields an empty child sequence for every `maxDepth ≥ 0`, and a root
with children and `maxDepth = 0` yields an empty child sequence, children
being expanded only under the strict inequality `currentDepth < maxDepth`. -/
theorem getCommentTree_empty_children_of_no_kids_or_exhausted
    (env : Nat → Option HNItem) (rootId maxDepth currentDepth : Nat)
    (item : HNItem) (node : CommentNode)
    (hitem : getItem env rootId = some item)
    (hnode : (getCommentTree env rootId maxDepth currentDepth).1 = some node)
    (hcond : item.kids = none ∨ item.kids = some [] ∨ maxDepth ≤ currentDepth) :
    node.children = [] := by
  rw [getCommentTree] at hnode
  by_cases h : currentDepth > maxDepth
  · simp [h] at hnode
  · simp only [h, if_false, gt_iff_lt, ite_false] at hnode
    rw [hitem] at hnode
    rcases hcond with hk | hk | hk
    · simp [hk] at hnode
      obtain rfl := hnode
      rfl
    · simp [hk] at hnode
      obtain rfl := hnode
      simp
    · have hlt : ¬ currentDepth < maxDepth := by omega
      cases hkid : item.kids with
      | none =>
        simp [hkid] at hnode
        obtain rfl := hnode
        rfl
      | some kids =>
        simp [hkid, hlt] at hnode
        obtain rfl := hnode
        rfl

theorem getCommentTree_empty_children_witness :
    getItem env0 3 = some item3 ∧
    (getCommentTree env0 3 1 0).1 =
      some { id := 3, «by» := "[deleted]", text := "", time := some 103,
             children := [] } ∧
    item3.kids = none ∧
    ({ id := 3, «by» := "[deleted]", text := "", time := some 103,
       children := [] } : CommentNode).children = [] := by
  refine ⟨rfl, by simp [getCommentTree, env0, item3, getItem], rfl, ?_⟩
  exact getCommentTree_empty_children_of_no_kids_or_exhausted env0 3 1 0 item3
    _ rfl (by simp [getCommentTree, env0, item3, getItem]) (Or.inl rfl)

/-- C4: every non-absent node returned by `getCommentTree` carries exactly
the fields `id`, `by`, `text`, `time` and `children`, where `id` and `time`
are copied from the fetched item, `by` falls back to "[deleted]" when the
item has no author, and `text` falls back to "" when the item has no body
text. -/
theorem getCommentTree_node_fields
    (env : Nat → Option HNItem) (itemId maxDepth currentDepth : Nat)
    (node : CommentNode) (item : HNItem)
    (hnode : (getCommentTree env itemId maxDepth currentDepth).1 = some node)
    (hitem : getItem env itemId = some item) :
    node.id = item.id ∧ node.«by» = item.«by».getD "[deleted]" ∧
    node.text = item.text.getD "" ∧ node.time = item.time := by
  rw [getCommentTree] at hnode
  by_cases h : currentDepth > maxDepth
  · simp [h] at hnode
  · simp only [h, gt_iff_lt, ite_false] at hnode
    rw [hitem] at hnode
    simp only [Option.some.injEq] at hnode
    obtain rfl := hnode
    exact ⟨rfl, rfl, rfl, rfl⟩

theorem getCommentTree_node_fields_witness :
    (getCommentTree env0 1 1 0).1.map CommentNode.id = some item1.id ∧
    getItem env0 1 = some item1 := by
  have hnode : (getCommentTree env0 1 1 0).1 =
      some { id := 1, «by» := "alice", text := "root", time := some 100,
             children := [{ id := 3, «by» := "[deleted]", text := "",
                            time := some 103, children := [] }] } := by
    simp [getCommentTree, env0, item1, item3, getItem]
  refine ⟨?_, rfl⟩
  rw [hnode]
  exact congrArg some
    (getCommentTree_node_fields env0 1 1 0 _ item1 hnode rfl).1

/-- A fold of `Max.max` over naturals starting at 0 is bounded by any bound
on all elements. -/
theorem foldr_max_le_of_forall (l : List Nat) (k : Nat)
    (h : ∀ x ∈ l, x ≤ k) : l.foldr Max.max 0 ≤ k := by
  induction l with
  | nil => simp
  | cons a t ih =>
    simp only [List.foldr_cons]
    exact max_le (h a (List.mem_cons_self a t))
      (ih fun x hx => h x (List.mem_cons_of_mem a hx))

/-- A node whose children all have height at most `k` has height at most
`k + 1`. -/
theorem CommentNode.height_le_of_children (node : CommentNode) (k : Nat)
    (h : ∀ c ∈ node.children, CommentNode.height c ≤ k) :
    CommentNode.height node ≤ k + 1 := by
  cases node with
  | mk i b t ti cs =>
    rw [CommentNode.height]
    have hb : ∀ x ∈ cs.attach.map (fun c => CommentNode.height c.1), x ≤ k := by
      intro x hx
      simp only [List.mem_map, List.mem_attach, true_and] at hx
      obtain ⟨c, rfl⟩ := hx
      exact h c.1 c.2
    have := foldr_max_le_of_forall _ k hb
    omega

/-- Fuel-indexed induction behind the height bound of `getCommentTree`. -/
theorem getCommentTree_height_aux (fuel : Nat) :
    ∀ (env : Nat → Option HNItem) (itemId maxDepth currentDepth : Nat)
      (node : CommentNode),
      maxDepth - currentDepth ≤ fuel →
      (getCommentTree env itemId maxDepth currentDepth).1 = some node →
      CommentNode.height node ≤ maxDepth - currentDepth + 1 := by
  induction fuel with
  | zero =>
    intro env itemId maxDepth currentDepth node hfuel hnode
    rw [getCommentTree] at hnode
    by_cases h : currentDepth > maxDepth
    · simp [h] at hnode
    · cases henv : getItem env itemId with
      | none => rw [henv] at hnode; simp [h] at hnode
      | some item =>
        simp only [h, gt_iff_lt, if_false, ite_false] at hnode
        rw [henv] at hnode
        simp only [Option.some.injEq] at hnode
        obtain rfl := hnode
        apply CommentNode.height_le_of_children
        intro c hc
        have hlt : ¬ currentDepth < maxDepth := by omega
        cases hkid : item.kids with
        | none => rw [hkid] at hc; simp at hc
        | some kids => rw [hkid] at hc; simp [hlt] at hc
  | succ f ih =>
    intro env itemId maxDepth currentDepth node hfuel hnode
    rw [getCommentTree] at hnode
    by_cases h : currentDepth > maxDepth
    · simp [h] at hnode
    · cases henv : getItem env itemId with
      | none => rw [henv] at hnode; simp [h] at hnode
      | some item =>
        simp only [h, gt_iff_lt, if_false, ite_false] at hnode
        rw [henv] at hnode
        simp only [Option.some.injEq] at hnode
        obtain rfl := hnode
        apply CommentNode.height_le_of_children
        intro c hc
        by_cases hlt : currentDepth < maxDepth
        · cases hkid : item.kids with
          | none => rw [hkid] at hc; simp at hc
          | some kids =>
            rw [hkid] at hc
            simp [hlt, List.filterMap_map, List.mem_filterMap,
              Function.comp] at hc
            obtain ⟨kid, hkidmem, hck⟩ := hc
            have hrec := ih env kid maxDepth (currentDepth + 1) c
              (by omega) hck
            omega
        · cases hkid : item.kids with
          | none => rw [hkid] at hc; simp at hc
          | some kids => rw [hkid] at hc; simp [hlt] at hc

/-- C9: `getCommentTree` terminates and its recursion is bounded by the
depth budget: every tree it returns has height at most
`maxDepth - currentDepth + 1`, because each recursive call increases
`currentDepth` by exactly one while `maxDepth` is unchanged and the guard
`currentDepth > maxDepth` stops the recursion (in the embedding the function
is total by well-founded recursion on `maxDepth - currentDepth`). -/
theorem getCommentTree_height_bounded
    (env : Nat → Option HNItem) (itemId maxDepth currentDepth : Nat)
    (node : CommentNode)
    (hnode : (getCommentTree env itemId maxDepth currentDepth).1 = some node) :
    CommentNode.height node ≤ maxDepth - currentDepth + 1 :=
  getCommentTree_height_aux (maxDepth - currentDepth) env itemId maxDepth
    currentDepth node (le_refl _) hnode

theorem getCommentTree_height_bounded_witness :
    (getCommentTree env0 1 1 0).1 = some node1 ∧
    CommentNode.height node1 ≤ 1 - 0 + 1 := by
  have h : (getCommentTree env0 1 1 0).1 = some node1 := by
    simp [getCommentTree, env0, item1, item3, getItem, node1, node3]
  exact ⟨h, getCommentTree_height_bounded env0 1 1 0 node1 h⟩

/-- C5: the item sequence of `getStories` has length at most `limit` and at
most `total - offset` (truncated at zero), where `total` is the reported
full id-list length, and the surviving items appear in the relative order of
the category id list. -/
theorem getStories_length_and_order
    (env : Nat → Option HNItem) (fetchIds : StoryKind → Option (List Nat))
    (kind : StoryKind) (limit offset : Nat) :
    (getStories env fetchIds kind limit offset).1.length ≤ limit ∧
    (getStories env fetchIds kind limit offset).1.length ≤
      (getStories env fetchIds kind limit offset).2 - offset ∧
    List.Sublist (getStories env fetchIds kind limit offset).1
      ((getStoryIds fetchIds kind).filterMap (getItem env)) := by
  unfold getStories
  simp only [List.filterMap_map, Function.id_comp]
  refine ⟨?_, ?_, ?_⟩
  · calc (List.filterMap (getItem env)
        ((List.drop offset (getStoryIds fetchIds kind)).take limit)).length
        ≤ ((List.drop offset (getStoryIds fetchIds kind)).take limit).length :=
          List.length_filterMap_le _ _
      _ ≤ limit := by simp [List.length_take]
  · calc (List.filterMap (getItem env)
        ((List.drop offset (getStoryIds fetchIds kind)).take limit)).length
        ≤ ((List.drop offset (getStoryIds fetchIds kind)).take limit).length :=
          List.length_filterMap_le _ _
      _ ≤ (getStoryIds fetchIds kind).length - offset := by
          simp [List.length_take, List.length_drop]
  · exact List.Sublist.filterMap _
      ((List.take_sublist _ _).trans (List.drop_sublist _ _))

/-- C6: when `offset` is at least the full id-list length, `getStories`
returns an empty item sequence and still reports the full id-list length as
`total`. -/
theorem getStories_offset_ge_total
    (env : Nat → Option HNItem) (fetchIds : StoryKind → Option (List Nat))
    (kind : StoryKind) (limit offset : Nat)
    (h : (getStoryIds fetchIds kind).length ≤ offset) :
    getStories env fetchIds kind limit offset =
      ([], (getStoryIds fetchIds kind).length) := by
  simp [getStories, List.drop_eq_nil_of_le h]

theorem getStories_offset_ge_total_witness :
    (getStoryIds fetchIds0 StoryKind.topstories).length ≤ 5 ∧
    (getStoryIds fetchIds0 StoryKind.topstories).length = 5 ∧
    getStories envStories fetchIds0 StoryKind.topstories 2 5 = ([], 5) := by
  refine ⟨by decide, by decide, ?_⟩
  have h := getStories_offset_ge_total envStories fetchIds0
    StoryKind.topstories 2 5 (by decide)
  rw [h]
  rfl

/-- C7: `fetchJson` returns absence (not an error) on every non-success
response status, and on a success status whose body fails to parse the parse
failure propagates to the caller as an error. -/
theorem fetchJson_error_handling {T : Type}
    (doFetch : String → HttpResponse) (parse : String → Except String T)
    (url : String) :
    ((doFetch url).ok = false → fetchJson doFetch parse url = Except.ok none) ∧
    (∀ e, (doFetch url).ok = true → parse (doFetch url).body = Except.error e →
      fetchJson doFetch parse url = Except.error e) := by
  constructor
  · intro h
    unfold fetchJson
    simp [h]
  · intro e hok hparse
    unfold fetchJson
    simp [hok, hparse]

theorem fetchJson_error_handling_witness :
    (badStatusFetch "u").ok = false ∧
    fetchJson badStatusFetch failingParse "u" = Except.ok none ∧
    (okStatusFetch "u").ok = true ∧
    failingParse (okStatusFetch "u").body = Except.error "Unexpected token" ∧
    fetchJson okStatusFetch failingParse "u" = Except.error "Unexpected token" :=
  ⟨rfl,
   (fetchJson_error_handling badStatusFetch failingParse "u").1 rfl,
   rfl, rfl,
   (fetchJson_error_handling okStatusFetch failingParse "u").2
     "Unexpected token" rfl rfl⟩

/-- C8: the story-listing tool handlers invoke `getStories` with a limit
clamped into [1, 50] and a non-negative offset, and the comment-tree tool
handler invokes `getCommentTree` with a depth clamped into [1, 5], for every
integer input. -/
theorem toolLayer_clamping (limit offset depth : Int) :
    1 ≤ (storyToolArgs limit offset).1 ∧ (storyToolArgs limit offset).1 ≤ 50 ∧
    0 ≤ (storyToolArgs limit offset).2 ∧
    1 ≤ commentToolDepth depth ∧ commentToolDepth depth ≤ 5 := by
  unfold storyToolArgs commentToolDepth clamp
  exact ⟨le_max_left 1 _, max_le (by norm_num) (min_le_left 50 _),
    le_max_left 0 _, le_max_left 1 _, max_le (by norm_num) (min_le_left 5 _)⟩

/-- Membership characterisation of the parameter list built by `searchHN`. -/
theorem mem_searchHNParams (query : String) (opts : SearchOpts)
    (kv : String × String) :
    kv ∈ searchHNParams query opts ↔
      kv = ("query", query) ∨
      (∃ t, opts.tags = some t ∧ t ≠ "" ∧ kv = ("tags", t)) ∨
      (∃ p, opts.page = some p ∧ kv = ("page", toString p)) ∨
      (∃ n, opts.hitsPerPage = some n ∧ kv = ("hitsPerPage", toString n)) ∨
      (∃ f, opts.numericFilters = some f ∧ f ≠ "" ∧
        kv = ("numericFilters", f)) := by
  obtain ⟨tags, page, hpp, nf⟩ := opts
  cases tags <;> cases page <;> cases hpp <;> cases nf <;>
    simp only [searchHNParams] <;> (try split_ifs) <;>
    simp_all [List.mem_append, or_assoc]

/-- C10: the request built by `searchHN` always includes the `query`
parameter; it includes `page` and `hitsPerPage` exactly when they are
supplied (including `page = 0`); and it omits `tags` and `numericFilters`
both when they are absent and when they are supplied as the empty string. -/
theorem searchHNParams_inclusion (query : String) (opts : SearchOpts) :
    ("query", query) ∈ searchHNParams query opts ∧
    (∀ p, opts.page = some p →
      ("page", toString p) ∈ searchHNParams query opts) ∧
    (opts.page = none → ∀ v, ("page", v) ∉ searchHNParams query opts) ∧
    (∀ n, opts.hitsPerPage = some n →
      ("hitsPerPage", toString n) ∈ searchHNParams query opts) ∧
    (opts.hitsPerPage = none →
      ∀ v, ("hitsPerPage", v) ∉ searchHNParams query opts) ∧
    (∀ v, ("tags", v) ∈ searchHNParams query opts ↔
      opts.tags = some v ∧ v ≠ "") ∧
    (∀ v, ("numericFilters", v) ∈ searchHNParams query opts ↔
      opts.numericFilters = some v ∧ v ≠ "") := by
  refine ⟨?_, ?_, ?_, ?_, ?_, ?_, ?_⟩ <;>
    simp [mem_searchHNParams, Prod.ext_iff]
  · intro p hp
    exact ⟨p, hp, rfl⟩
  · intro h v x hx
    rw [h] at hx
    exact Option.noConfusion hx
  · intro n hn
    exact ⟨n, hn, rfl⟩
  · intro h v x hx
    rw [h] at hx
    exact Option.noConfusion hx

theorem searchHNParams_inclusion_witness :
    ("query", "rust") ∈ searchHNParams "rust" searchOpts0 ∧
    searchOpts0.page = some 0 ∧
    ("page", toString (0 : Int)) ∈ searchHNParams "rust" searchOpts0 ∧
    searchOpts0.hitsPerPage = some 10 ∧
    ("hitsPerPage", toString (10 : Int)) ∈ searchHNParams "rust" searchOpts0 ∧
    searchOpts0.tags = some "" ∧
    ("tags", "") ∉ searchHNParams "rust" searchOpts0 ∧
    searchOpts0.numericFilters = none ∧
    ("numericFilters", "points>100") ∉ searchHNParams "rust" searchOpts0 := by
  refine ⟨(searchHNParams_inclusion "rust" searchOpts0).1, rfl,
    (searchHNParams_inclusion "rust" searchOpts0).2.1 0 rfl, rfl,
    (searchHNParams_inclusion "rust" searchOpts0).2.2.2.1 10 rfl, rfl,
    ?_, rfl, ?_⟩
  · intro hmem
    have h := ((searchHNParams_inclusion "rust"
      searchOpts0).2.2.2.2.2.1 "").mp hmem
    exact h.2 rfl
  · intro hmem
    have h := ((searchHNParams_inclusion "rust"
      searchOpts0).2.2.2.2.2.2 "points>100").mp hmem
    simp [searchOpts0] at h
